import Mathlib

/-!
# awsInstanceTypes: the exclude-list matcher and the paginated fetch-with-filter loop

A shallow embedding of `main.go`.

* Go strings are modelled as lists of Unicode characters (`GoString`), that is, as
  well-formed UTF-8 text.
* `regexp.MustCompile` and `Regexp.MatchString` belong to the Go standard library.
  They are modelled by `Compile` (the stack parser of `regexp/syntax` under the `Perl`
  flags) and `Regex.MatchString` (the set of end positions of every node, searched from
  every start position).  The modelled fragment is: literals, `.`, `|`, `(`, `(?:`, `)`,
  `^`, `$`, `*`, `+`, `?` (with the lazy marker), and the backslash escapes that need no
  table.  A pattern that uses anything else (`[`, `{`, other `(?` groups, `\Q`, `\p`,
  `\x`, octal escapes) gives `Failure.outside`: the model does not decide it.
  The size and nesting limits of the library are resource limits and are not modelled.
* The EC2 client is the collaborator: `EC2API` answers a request with the pages it
  will deliver and the error, if any, that ends the enumeration.
-/

namespace AwsInstanceTypes

/-! ## Strings and errors -/

deriving instance DecidableEq for Except

/-- Go string, as the list of its characters. -/
abbrev GoString := List Char

/-- Go `error` values: `errors.New` / `fmt.Errorf` without `%w` give `errorString`,
`fmt.Errorf` with `%w` gives `wrapError`. -/
inductive GoError where
  | errorString (s : String)
  | wrapError (msg : String) (cause : GoError)
  deriving DecidableEq, Repr

/-- Go `errors.Unwrap`: the wrapped cause, if there is one. -/
def GoError.Unwrap : GoError → Option GoError
  | .errorString _ => none
  | .wrapError _ cause => some cause

/-- Go `fmt.Errorf(format)` with no operands and no verb in `format`: since nothing is
wrapped the result is `errors.New(format)`. -/
def Errorf (format : String) : GoError := .errorString format

/-! ## The regular expressions of `regexp/syntax` -/

/-- Perl character classes `\d`, `\s`, `\w`. -/
inductive PerlClass where
  | digit
  | space
  | word
  deriving DecidableEq, Repr

/-- Parsed regular expression (`syntax.Regexp`), with binary concatenation and
alternation. -/
inductive Regex where
  | emptyMatch
  | noMatch
  | literal (c : Char)
  | anyCharNotNL
  | charClass (k : PerlClass) (negated : Bool)
  | beginText
  | endText
  | wordBoundary
  | noWordBoundary
  | capture (r : Regex)
  | star (r : Regex)
  | plus (r : Regex)
  | quest (r : Regex)
  | concat (r₁ r₂ : Regex)
  | alternate (r₁ r₂ : Regex)
  deriving DecidableEq, Repr

/-- Parse errors of `regexp/syntax` that the modelled fragment can raise. -/
inductive ErrorCode where
  | missingParen
  | unexpectedParen
  | missingRepeatArgument
  | invalidRepeatOp
  | trailingBackslash
  | invalidEscape
  deriving DecidableEq, Repr

/-- Why a parse stops: a syntax error, or a construct outside the modelled fragment. -/
inductive Failure where
  | syntaxError (code : ErrorCode)
  | outside
  deriving DecidableEq, Repr

/-- Entries of the parse stack: finished expressions and the two pseudo-operators. -/
inductive Item where
  | re (r : Regex)
  | leftParen (cap : Bool)
  | verticalBar
  deriving DecidableEq, Repr

/-- The operands above the topmost pseudo-operator, in source order, and the stack
below them (the scan `for i > 0 && p.stack[i-1].Op < opPseudo` of `concat` and
`alternate`).  The stack's top is the head of the list. -/
def popOperands : List Regex → List Item → List Regex × List Item
  | acc, .re r :: st => popOperands (r :: acc) st
  | acc, st => (acc, st)

/-- `collapse(subs, OpConcat)` on a non-empty operand list; the empty concatenation is
`OpEmptyMatch`. -/
def collapseConcat : List Regex → Regex
  | [] => .emptyMatch
  | [r] => r
  | r :: rs => .concat r (collapseConcat rs)

/-- `collapse(subs, OpAlternate)` on a non-empty operand list; the empty alternation is
`OpNoMatch`. -/
def collapseAlternate : List Regex → Regex
  | [] => .noMatch
  | [r] => r
  | r :: rs => .alternate r (collapseAlternate rs)

/-- `parser.concat`: replace the operands above the topmost pseudo-operator by their
concatenation. -/
def parserConcat (st : List Item) : List Item :=
  .re (collapseConcat (popOperands [] st).1) :: (popOperands [] st).2

/-- `parser.alternate`: replace the operands above the topmost pseudo-operator by their
alternation. -/
def parserAlternate (st : List Item) : List Item :=
  .re (collapseAlternate (popOperands [] st).1) :: (popOperands [] st).2

/-- `parser.swapVerticalBar`: when a vertical bar lies just below the top, move it to
the top; `none` when it does not apply. -/
def swapVerticalBar : List Item → Option (List Item)
  | x :: .verticalBar :: st => some (.verticalBar :: x :: st)
  | _ => none

/-- `parser.parseVerticalBar`. -/
def parseVerticalBar (st : List Item) : List Item :=
  match swapVerticalBar (parserConcat st) with
  | some st' => st'
  | none => .verticalBar :: parserConcat st

/-- The tail shared by `parseRightParen` and the end of `parse`: concatenate, drop the
pending vertical bar, alternate. -/
def closeAlternation (st : List Item) : List Item :=
  match swapVerticalBar (parserConcat st) with
  | some st' => parserAlternate st'.tail
  | none => parserAlternate (parserConcat st)

/-- `parser.parseRightParen`. -/
def parseRightParen (st : List Item) : Except Failure (List Item) :=
  match closeAlternation st with
  | .re r :: .leftParen cap :: rest =>
      if cap then .ok (.re (.capture r) :: rest) else .ok (.re r :: rest)
  | _ => .error (.syntaxError .unexpectedParen)

/-- `parser.repeat` for `*`, `+`, `?` under the Perl flags: stacked repetition
operators are rejected, then the operator needs an operand on top of the stack. -/
def parserRepeat (op : Regex → Regex) (st : List Item) (lastRepeat : Bool) :
    Except Failure (List Item) :=
  if lastRepeat then .error (.syntaxError .invalidRepeatOp)
  else match st with
    | .re r :: rest => .ok (.re (op r) :: rest)
    | _ => .error (.syntaxError .missingRepeatArgument)

/-- The operator of a repetition character. -/
def repeatOp (c : Char) : Regex → Regex :=
  if c = '*' then .star else if c = '+' then .plus else .quest

/-- `isalnum` of `regexp/syntax`. -/
def isalnum (c : Char) : Bool :=
  ('0' ≤ c && c ≤ '9') || ('A' ≤ c && c ≤ 'Z') || ('a' ≤ c && c ≤ 'z')

/-- What a backslash followed by `c` stands for under the Perl flags. -/
def parseEscape (c : Char) : Except Failure Regex :=
  if c = 'A' then .ok .beginText
  else if c = 'z' then .ok .endText
  else if c = 'b' then .ok .wordBoundary
  else if c = 'B' then .ok .noWordBoundary
  else if c = 'C' then .error (.syntaxError .invalidEscape)
  else if c = 'Q' ∨ c = 'E' ∨ c = 'p' ∨ c = 'P' ∨ c = 'x' then .error .outside
  else if c = 'd' then .ok (.charClass .digit false)
  else if c = 'D' then .ok (.charClass .digit true)
  else if c = 's' then .ok (.charClass .space false)
  else if c = 'S' then .ok (.charClass .space true)
  else if c = 'w' then .ok (.charClass .word false)
  else if c = 'W' then .ok (.charClass .word true)
  else if '0' ≤ c ∧ c ≤ '7' then .error .outside
  else if c = 'a' then .ok (.literal (Char.ofNat 7))
  else if c = 'f' then .ok (.literal (Char.ofNat 12))
  else if c = 'n' then .ok (.literal (Char.ofNat 10))
  else if c = 'r' then .ok (.literal (Char.ofNat 13))
  else if c = 't' then .ok (.literal (Char.ofNat 9))
  else if c = 'v' then .ok (.literal (Char.ofNat 11))
  else if c.toNat < 128 ∧ isalnum c = false then .ok (.literal c)
  else .error (.syntaxError .invalidEscape)

/-- Parser state between two iterations: the stack and whether the previous token
was a repetition operator. -/
structure ParseState where
  stack : List Item
  lastRepeat : Bool
  deriving DecidableEq, Repr

/-- One iteration of the main loop of `syntax.parse` (the big switch) at character `c`
followed by `t`: the new state, and how many characters of `t` the iteration consumed
as well. -/
def parseStep (c : Char) (t : List Char) (st : List Item) (lastRepeat : Bool) :
    Except Failure (ParseState × Nat) :=
  if c = '(' then
    match t with
    | '?' :: ':' :: _ => .ok (⟨.leftParen false :: st, false⟩, 2)
    | '?' :: _ => .error .outside
    | _ => .ok (⟨.leftParen true :: st, false⟩, 0)
  else if c = '|' then .ok (⟨parseVerticalBar st, false⟩, 0)
  else if c = ')' then
    match parseRightParen st with
    | .ok st' => .ok (⟨st', false⟩, 0)
    | .error e => .error e
  else if c = '^' then .ok (⟨.re .beginText :: st, false⟩, 0)
  else if c = '$' then .ok (⟨.re .endText :: st, false⟩, 0)
  else if c = '.' then .ok (⟨.re .anyCharNotNL :: st, false⟩, 0)
  else if c = '[' ∨ c = '{' then .error .outside
  else if c = '*' ∨ c = '+' ∨ c = '?' then
    match parserRepeat (repeatOp c) st lastRepeat with
    | .ok st' =>
      match t with
      | '?' :: _ => .ok (⟨st', true⟩, 1)
      | _ => .ok (⟨st', true⟩, 0)
    | .error e => .error e
  else if c = '\\' then
    match t with
    | [] => .error (.syntaxError .trailingBackslash)
    | d :: _ =>
      match parseEscape d with
      | .ok r => .ok (⟨.re r :: st, false⟩, 1)
      | .error e => .error e
  else .ok (⟨.re (.literal c) :: st, false⟩, 0)

/-- The main loop of `syntax.parse`: the remaining pattern, the state, and the number
of leading characters that the previous iteration has already consumed. -/
def parseLoop : List Char → ParseState → Nat → Except Failure (List Item)
  | [], s, _ => .ok s.stack
  | _ :: t, s, consumed + 1 => parseLoop t s consumed
  | c :: t, s, 0 =>
    match parseStep c t s.stack s.lastRepeat with
    | .ok (s', consumed) => parseLoop t s' consumed
    | .error e => .error e

/-- `syntax.Parse(s, syntax.Perl)`: run the loop, close the outermost alternation, and
require a single expression on the stack. -/
def Parse (s : GoString) : Except Failure Regex :=
  match parseLoop s ⟨[], false⟩ 0 with
  | .error e => .error e
  | .ok st =>
    match closeAlternation st with
    | [.re r] => .ok r
    | _ => .error (.syntaxError .missingParen)

/-! ## Matching -/

/-- Position in the subject string: the character just before it, if any, and the
text that remains. -/
structure Cursor where
  prev : Option Char
  rest : List Char
  deriving DecidableEq, Repr

/-- ASCII word characters, the class `\w`. -/
def isWordChar (c : Char) : Bool := isalnum c || c == '_'

/-- Membership in a Perl class. -/
def PerlClass.mem : PerlClass → Char → Bool
  | .digit, c => '0' ≤ c && c ≤ '9'
  | .space, c => c == ' ' || c == Char.ofNat 9 || c == Char.ofNat 10 || c == Char.ofNat 12
      || c == Char.ofNat 13
  | .word, c => isWordChar c

/-- Whether the position lies between a word character and a non-word character (or
a text boundary). -/
def Cursor.atWordBoundary (cur : Cursor) : Bool :=
  (match cur.prev with | some c => isWordChar c | none => false) !=
    (match cur.rest with | c :: _ => isWordChar c | [] => false)

/-- Consume one character satisfying `p`. -/
def Cursor.eat (p : Char → Bool) (cur : Cursor) : List Cursor :=
  match cur.rest with
  | c :: t => if p c then [⟨some c, t⟩] else []
  | [] => []

/-- Stay in place when `b` holds. -/
def Cursor.check (b : Bool) (cur : Cursor) : List Cursor :=
  if b then [cur] else []

/-- The positions reachable from `front` by at most `fuel` rounds of `step`. -/
def reach (step : Cursor → List Cursor) : Nat → List Cursor → List Cursor
  | 0, front => front
  | fuel + 1, front => front ++ reach step fuel (front.flatMap step)

/-- The positions at which a match of the expression that starts at `cur` can end.
A repetition never needs more rounds than there are characters left, plus one. -/
def Regex.ends : Regex → Cursor → List Cursor
  | .emptyMatch, cur => [cur]
  | .noMatch, _ => []
  | .literal c, cur => cur.eat (fun d => d == c)
  | .anyCharNotNL, cur => cur.eat (fun d => d != Char.ofNat 10)
  | .charClass k negated, cur => cur.eat (fun d => k.mem d != negated)
  | .beginText, cur => cur.check cur.prev.isNone
  | .endText, cur => cur.check cur.rest.isEmpty
  | .wordBoundary, cur => cur.check cur.atWordBoundary
  | .noWordBoundary, cur => cur.check (!cur.atWordBoundary)
  | .capture r, cur => r.ends cur
  | .star r, cur => reach r.ends (cur.rest.length + 1) [cur]
  | .plus r, cur => (r.ends cur).flatMap (fun c => reach r.ends (c.rest.length + 1) [c])
  | .quest r, cur => cur :: r.ends cur
  | .concat r₁ r₂, cur => (r₁.ends cur).flatMap r₂.ends
  | .alternate r₁ r₂, cur => r₁.ends cur ++ r₂.ends cur

/-- Every position of a string, from the start to the end of the text. -/
def cursors : Option Char → List Char → List Cursor
  | p, [] => [⟨p, []⟩]
  | p, c :: t => ⟨p, c :: t⟩ :: cursors (some c) t

/-- Go `(*Regexp).MatchString`: the string contains a match of the expression,
starting at any position. -/
def Regex.MatchString (re : Regex) (s : GoString) : Bool :=
  (cursors none s).any (fun cur => !(re.ends cur).isEmpty)

/-- Outcome of `regexp.Compile`, as far as the model decides it. -/
def Compile (expr : GoString) : Except Failure Regex := Parse expr

/-! ## The program -/

/-- Go `strings.Join`. -/
def Join : List GoString → GoString → GoString
  | [], _ => []
  | [a], _ => a
  | a :: rest, sep => a ++ sep ++ Join rest sep

/-- Record `ec2.InstanceTypeInfo`: the name, which is all the program reads, and the
remaining fields taken together.  The name is present, as in every EC2 response. -/
structure InstanceTypeInfo where
  InstanceType : GoString
  details : Nat
  deriving DecidableEq, Repr

/-- Record `ec2.Filter`. -/
structure Filter where
  Name : String
  Values : List String
  deriving DecidableEq, Repr

/-- Record `ec2.DescribeInstanceTypesInput`. -/
structure DescribeInstanceTypesInput where
  Filters : List Filter
  deriving DecidableEq, Repr

/-- What the catalog does with one request: the pages it delivers, in order, and the
error that ends the enumeration, if any. -/
structure Enumeration where
  pages : List (List InstanceTypeInfo)
  err : Option GoError
  deriving DecidableEq, Repr

/-- The collaborator `ec2iface.EC2API`, reduced to the one call the program makes. -/
abbrev EC2API := DescribeInstanceTypesInput → Enumeration

/-- The pagination loop of the SDK: hand every page to `fn` together with the
last-page flag, stop when `fn` returns false, and return the enumeration's error. -/
def runPages {σ : Type} (fn : σ → List InstanceTypeInfo → Bool → σ × Bool)
    (failure : Option GoError) : List (List InstanceTypeInfo) → σ → σ × Option GoError
  | [], s => (s, failure)
  | page :: rest, s =>
    if (fn s page (rest.isEmpty && failure.isNone)).2 then
      runPages fn failure rest (fn s page (rest.isEmpty && failure.isNone)).1
    else ((fn s page (rest.isEmpty && failure.isNone)).1, none)

/-- SDK call `DescribeInstanceTypesPagesWithContext`. -/
def DescribeInstanceTypesPagesWithContext {σ : Type} (api : EC2API)
    (input : DescribeInstanceTypesInput)
    (fn : σ → List InstanceTypeInfo → Bool → σ × Bool) (s : σ) : σ × Option GoError :=
  runPages fn (api input).err (api input).pages s

/-- Record `InstanceTypeProvider`; a nil `excludeListRegexp` is `none`. -/
structure InstanceTypeProvider where
  excludeList : List GoString
  excludeListRegexp : Option Regex
  ec2api : EC2API

/-- The pattern `fmt.Sprintf("^(%s)$", strings.Join(excludeList, "|"))`. -/
def excludePattern (excludeList : List GoString) : GoString :=
  ['^', '('] ++ Join excludeList ['|'] ++ [')', '$']

/-- Constructor `NewInstanceTypeProvider`.  `regexp.MustCompile` panics on a pattern
that does not compile: the result is then `.error (.syntaxError code)`. -/
def NewInstanceTypeProvider (ec2api : EC2API) (excludeList : List GoString) :
    Except Failure InstanceTypeProvider :=
  if excludeList.length > 0 then
    match Compile (excludePattern excludeList) with
    | .ok re => .ok { ec2api := ec2api, excludeListRegexp := some re,
                      excludeList := excludeList }
    | .error e => .error e
  else .ok { ec2api := ec2api, excludeListRegexp := none, excludeList := excludeList }

/-- Method `instanceTypeInExcludeList`. -/
def InstanceTypeProvider.instanceTypeInExcludeList (p : InstanceTypeProvider)
    (instanceType : GoString) : Bool :=
  match p.excludeListRegexp with
  | none => true
  | some re => re.MatchString instanceType

/-- The request of `getInstanceTypes`: types that support the virtualization type
`hvm`. -/
def hvmInput : DescribeInstanceTypesInput :=
  { Filters := [{ Name := "supported-virtualization-type", Values := ["hvm"] }] }

/-- The page handler of `getInstanceTypes`: append the page's descriptors that are
not in the exclude list, and ask for the next page. -/
def InstanceTypeProvider.pageHandler (p : InstanceTypeProvider)
    (instanceTypes : List InstanceTypeInfo) (page : List InstanceTypeInfo)
    (_lastPage : Bool) : List InstanceTypeInfo × Bool :=
  (page.foldl
    (fun acc instanceType =>
      if p.instanceTypeInExcludeList instanceType.InstanceType then acc
      else acc ++ [instanceType])
    instanceTypes, true)

/-- Method `getInstanceTypes`: the returned slice (`none` is nil) and the returned
error. -/
def InstanceTypeProvider.getInstanceTypes (p : InstanceTypeProvider) :
    Option (List InstanceTypeInfo) × Option GoError :=
  match DescribeInstanceTypesPagesWithContext p.ec2api hvmInput p.pageHandler [] with
  | (_, some _) => (none, some (Errorf "unable to fetch instance types"))
  | (instanceTypes, none) => (some instanceTypes, none)

/-- Go `len` of a slice; a nil slice has length 0. -/
def len (s : Option (List InstanceTypeInfo)) : Nat :=
  match s with
  | none => 0
  | some l => l.length

/-- Value written by `fmt.Println`. -/
inductive Printed where
  | error (e : GoError)
  | count (n : Nat)
  deriving DecidableEq, Repr

/-- What `main` prints for the result of `getInstanceTypes`: the error if there is
one, then the count. -/
def report (result : Option (List InstanceTypeInfo) × Option GoError) : List Printed :=
  (match result.2 with
    | some e => [.error e]
    | none => []) ++ [.count (len result.1)]

/-- The exclude list of `main`. -/
def mainExcludeList : List GoString :=
  ["a1.metal".toList, "a1.medium".toList, "a1.large".toList, "a1.xlarge".toList,
   "a1.2xlarge".toList, "a1.4xlarge".toList]

/-- Function `main`, for a given catalog client: the lines printed, or the panic of
the constructor. -/
def main (ec2api : EC2API) : Except Failure (List Printed) :=
  match NewInstanceTypeProvider ec2api mainExcludeList with
  | .ok instanceTypeProvider => .ok (report instanceTypeProvider.getInstanceTypes)
  | .error e => .error e

/-! ## Characters without a special meaning in a pattern -/

/-- Characters that the parser treats as operators, the dot apart. -/
def isOperator (c : Char) : Bool :=
  c == '\\' || c == '|' || c == '(' || c == ')' || c == '[' || c == '{' || c == '*'
    || c == '+' || c == '?' || c == '^' || c == '$'

/-- Regular-expression metacharacters: the operators and the dot. -/
def isMeta (c : Char) : Bool := isOperator c || c == '.'

/-- The expression a character without operator meaning parses to. -/
def charRe (c : Char) : Regex := if c = '.' then .anyCharNotNL else .literal c

/-- The expression an operator-free entry parses to. -/
def entryRe (e : GoString) : Regex := collapseConcat (e.map charRe)

/-- The stack entries left by the characters of an operator-free entry. -/
def pushed (e : GoString) : List Item := (e.map (fun c => Item.re (charRe c))).reverse

/-- The stack inside the group once the alternatives `done` are behind a bar. -/
def altStack (done : List Regex) (below : List Item) : List Item :=
  match done with
  | [] => .leftParen true :: below
  | _ :: _ => .verticalBar :: (done.map Item.re).reverse ++ .leftParen true :: below

/-- The expression that the pattern of an operator-free exclude list compiles to. -/
def excludeRe (excludeList : List GoString) : Regex :=
  .concat .beginText (.concat (.capture (collapseAlternate (excludeList.map entryRe))) .endText)

/-- The character just before the position reached after reading `e`. -/
def lastOr (p : Option Char) (e : GoString) : Option Char :=
  e.foldl (fun _ c => some c) p

/-! ## The fetch-with-filter loop, as a filter -/

/-- The descriptors of a page that the provider keeps. -/
def InstanceTypeProvider.included (p : InstanceTypeProvider) (page : List InstanceTypeInfo) :
    List InstanceTypeInfo :=
  page.filter (fun instanceType => !p.instanceTypeInExcludeList instanceType.InstanceType)

/-! ## Sample data -/

/-- A catalog that answers every request with the given pages and no error. -/
def catalogOf (pages : List (List InstanceTypeInfo)) : EC2API := fun _ => ⟨pages, none⟩

/-- A catalog that delivers the given pages and then fails with `e`. -/
def failingCatalog (pages : List (List InstanceTypeInfo)) (e : GoError) : EC2API :=
  fun _ => ⟨pages, some e⟩

/-- A descriptor with the given name. -/
def info (name : String) (details : Nat) : InstanceTypeInfo := ⟨name.toList, details⟩

/-! ## The parser on operator-free entries -/

theorem isOperator_false_iff (c : Char) :
    isOperator c = false ↔
      c ≠ '\\' ∧ c ≠ '|' ∧ c ≠ '(' ∧ c ≠ ')' ∧ c ≠ '[' ∧ c ≠ '{' ∧ c ≠ '*' ∧ c ≠ '+' ∧
        c ≠ '?' ∧ c ≠ '^' ∧ c ≠ '$' := by
  simp [isOperator, and_assoc]

theorem parseStep_char (c : Char) (t : List Char) (st : List Item) (lr : Bool)
    (hc : isOperator c = false) :
    parseStep c t st lr = .ok (⟨.re (charRe c) :: st, false⟩, 0) := by
  obtain ⟨h1, h2, h3, h4, h5, h6, h7, h8, h9, h10, h11⟩ := (isOperator_false_iff c).1 hc
  unfold parseStep
  by_cases hd : c = '.'
  · subst hd
    simp [charRe]
  · simp [h1, h2, h3, h4, h5, h6, h7, h8, h9, h10, h11, hd, charRe]

theorem parseLoop_entry (e : GoString) (he : ∀ c ∈ e, isOperator c = false)
    (t : List Char) (st : List Item) (lr : Bool) :
    parseLoop (e ++ t) ⟨st, lr⟩ 0 = parseLoop t ⟨pushed e ++ st, lr && e.isEmpty⟩ 0 := by
  induction e generalizing st lr with
  | nil => simp [pushed]
  | cons c e ih =>
    have hc := he c (List.mem_cons_self _ _)
    have he' : ∀ d ∈ e, isOperator d = false := fun d hd => he d (List.mem_cons_of_mem _ hd)
    rw [List.cons_append, parseLoop, parseStep_char c _ st lr hc]
    simp only
    rw [ih he']
    simp [pushed]

theorem parseLoop_bar (t : List Char) (st : List Item) (lr : Bool) :
    parseLoop ('|' :: t) ⟨st, lr⟩ 0 = parseLoop t ⟨parseVerticalBar st, false⟩ 0 := by
  rw [parseLoop]; simp [parseStep]

theorem parseLoop_rightParen (t : List Char) (st st' : List Item) (lr : Bool)
    (h : parseRightParen st = .ok st') :
    parseLoop (')' :: t) ⟨st, lr⟩ 0 = parseLoop t ⟨st', false⟩ 0 := by
  rw [parseLoop]; simp [parseStep, h]

theorem popOperands_append (rs : List Regex) (acc : List Regex) (st : List Item) :
    popOperands acc ((rs.map Item.re).reverse ++ st) = popOperands (rs ++ acc) st := by
  induction rs generalizing st with
  | nil => simp
  | cons r rs ih =>
    simp only [List.map_cons, List.reverse_cons, List.append_assoc, List.singleton_append]
    rw [ih]
    simp [popOperands]

theorem popOperands_leftParen (acc : List Regex) (cap : Bool) (st : List Item) :
    popOperands acc (.leftParen cap :: st) = (acc, .leftParen cap :: st) := by
  simp [popOperands]

theorem popOperands_verticalBar (acc : List Regex) (st : List Item) :
    popOperands acc (.verticalBar :: st) = (acc, .verticalBar :: st) := by
  simp [popOperands]

theorem pushed_eq (e : GoString) : pushed e = ((e.map charRe).map Item.re).reverse := by
  simp [pushed, List.map_map, Function.comp_def]

theorem parserConcat_pushed_altStack (e : GoString) (done : List Regex) (below : List Item) :
    parserConcat (pushed e ++ altStack done below) =
      .re (entryRe e) :: altStack done below := by
  unfold parserConcat
  rw [pushed_eq, popOperands_append]
  cases done with
  | nil => simp [altStack, popOperands_leftParen, entryRe]
  | cons d ds => simp [altStack, popOperands_verticalBar, entryRe]

theorem parseVerticalBar_pushed (e : GoString) (done : List Regex) (below : List Item) :
    parseVerticalBar (pushed e ++ altStack done below) =
      altStack (done ++ [entryRe e]) below := by
  unfold parseVerticalBar
  rw [parserConcat_pushed_altStack]
  cases done with
  | nil => simp [altStack, swapVerticalBar]
  | cons d ds => simp [altStack, swapVerticalBar]

theorem closeAlternation_pushed (e : GoString) (done : List Regex) (below : List Item) :
    closeAlternation (pushed e ++ altStack done below) =
      .re (collapseAlternate (done ++ [entryRe e])) :: .leftParen true :: below := by
  unfold closeAlternation
  rw [parserConcat_pushed_altStack]
  cases done with
  | nil => simp [altStack, swapVerticalBar, parserAlternate, popOperands]
  | cons d ds =>
    have hs : swapVerticalBar (Item.re (entryRe e) :: altStack (d :: ds) below) =
        some (.verticalBar :: ((List.map Item.re ((d :: ds) ++ [entryRe e])).reverse ++
          Item.leftParen true :: below)) := by
      simp [altStack, swapVerticalBar]
    rw [hs]
    simp only [List.tail_cons]
    unfold parserAlternate
    rw [popOperands_append, popOperands_leftParen]
    simp

theorem parseRightParen_pushed (e : GoString) (done : List Regex) (below : List Item) :
    parseRightParen (pushed e ++ altStack done below) =
      .ok (.re (.capture (collapseAlternate (done ++ [entryRe e]))) :: below) := by
  unfold parseRightParen
  rw [closeAlternation_pushed]
  simp

theorem parseLoop_entries (es : List GoString) (e : GoString)
    (h : ∀ x ∈ e :: es, ∀ c ∈ x, isOperator c = false)
    (done : List Regex) (below : List Item) (t : List Char) (lr : Bool) :
    parseLoop (Join (e :: es) ['|'] ++ ')' :: t) ⟨altStack done below, lr⟩ 0 =
      parseLoop t
        ⟨.re (.capture (collapseAlternate (done ++ (e :: es).map entryRe))) :: below,
          false⟩ 0 := by
  induction es generalizing e done lr with
  | nil =>
    have he := h e (List.mem_cons_self _ _)
    simp only [Join, List.map_cons, List.map_nil]
    rw [parseLoop_entry e he,
      parseLoop_rightParen _ _ _ _ (parseRightParen_pushed e done below)]
  | cons e₂ es ih =>
    have he := h e (List.mem_cons_self _ _)
    have h' : ∀ x ∈ e₂ :: es, ∀ c ∈ x, isOperator c = false :=
      fun x hx => h x (List.mem_cons_of_mem _ hx)
    have hj : Join (e :: e₂ :: es) ['|'] ++ ')' :: t =
        e ++ ('|' :: (Join (e₂ :: es) ['|'] ++ ')' :: t)) := by
      simp [Join]
    rw [hj, parseLoop_entry e he, parseLoop_bar, parseVerticalBar_pushed, ih e₂ h']
    simp

theorem join_head_ne_quest (e : GoString) (es : List GoString)
    (h : ∀ c ∈ e, isOperator c = false) (t t' : List Char) :
    Join (e :: es) ['|'] ++ ')' :: t ≠ '?' :: t' := by
  cases e with
  | nil => cases es <;> simp [Join]
  | cons c e =>
    have hc := ((isOperator_false_iff c).1 (h c (List.mem_cons_self _ _))).2.2.2.2.2.2.2.2.1
    cases es <;> simp [Join, hc]

theorem parseStep_leftParen (t : List Char) (st : List Item) (lr : Bool)
    (h : ∀ t', t ≠ '?' :: t') :
    parseStep '(' t st lr = .ok (⟨.leftParen true :: st, false⟩, 0) := by
  unfold parseStep
  simp only [if_true]
  split
  · exact absurd rfl (h _)
  · exact absurd rfl (h _)
  · rfl

theorem Compile_excludePattern (e : GoString) (es : List GoString)
    (h : ∀ x ∈ e :: es, ∀ c ∈ x, isOperator c = false) :
    Compile (excludePattern (e :: es)) = .ok (excludeRe (e :: es)) := by
  have h1 : excludePattern (e :: es) =
      '^' :: '(' :: (Join (e :: es) ['|'] ++ ')' :: ['$']) := by
    simp [excludePattern]
  have h2 : parseLoop (excludePattern (e :: es)) ⟨[], false⟩ 0 =
      .ok [.re .endText, .re (.capture (collapseAlternate ((e :: es).map entryRe))),
        .re .beginText] := by
    rw [h1, parseLoop]
    have hc : parseStep '^' ('(' :: (Join (e :: es) ['|'] ++ ')' :: ['$'])) [] false =
        .ok (⟨[.re .beginText], false⟩, 0) := by simp [parseStep]
    simp only [hc]
    rw [parseLoop, parseStep_leftParen _ _ _
      (join_head_ne_quest e es (h e (List.mem_cons_self _ _)) ['$'])]
    simp only
    have ha : [Item.leftParen true, Item.re Regex.beginText] =
        altStack [] [Item.re Regex.beginText] := rfl
    rw [ha, parseLoop_entries es e h]
    simp [parseLoop, parseStep]
  unfold Compile Parse
  rw [h2]
  simp [closeAlternation, parserConcat, popOperands, swapVerticalBar, parserAlternate,
    collapseConcat, collapseAlternate, excludeRe]

/-! ## Matching the compiled exclude list -/

theorem collapseConcat_ends (r : Regex) (rs : List Regex) (cur : Cursor) :
    (collapseConcat (r :: rs)).ends cur = (r.ends cur).flatMap (collapseConcat rs).ends := by
  cases rs with
  | nil =>
    have : (collapseConcat []).ends = fun c => [c] := by
      funext c; simp [collapseConcat, Regex.ends]
    rw [this]
    simp only [collapseConcat]
    induction r.ends cur with
    | nil => rfl
    | cons a l ih => simp [List.flatMap_cons, ← ih]
  | cons r' rs => simp [collapseConcat, Regex.ends]

theorem collapseAlternate_ends (r : Regex) (rs : List Regex) (cur : Cursor) :
    (collapseAlternate (r :: rs)).ends cur = r.ends cur ++ (collapseAlternate rs).ends cur := by
  cases rs with
  | nil => simp [collapseAlternate, Regex.ends]
  | cons r' rs => simp [collapseAlternate, Regex.ends]

theorem mem_collapseAlternate_ends (rs : List Regex) (cur c : Cursor) :
    c ∈ (collapseAlternate rs).ends cur ↔ ∃ r ∈ rs, c ∈ r.ends cur := by
  induction rs with
  | nil => simp [collapseAlternate, Regex.ends]
  | cons r rs ih => rw [collapseAlternate_ends, List.mem_append, ih]; simp

theorem isMeta_false_iff (c : Char) :
    isMeta c = false ↔ isOperator c = false ∧ c ≠ '.' := by
  simp [isMeta]

theorem charRe_ends_self (c : Char) (p : Option Char) (s : List Char) :
    (charRe c).ends ⟨p, c :: s⟩ = [⟨some c, s⟩] := by
  unfold charRe
  split
  · next h => subst h; simp [Regex.ends, Cursor.eat]
  · simp [Regex.ends, Cursor.eat]

theorem entryRe_ends_self (e : GoString) (p : Option Char) (s : List Char) :
    ⟨lastOr p e, s⟩ ∈ (entryRe e).ends ⟨p, e ++ s⟩ := by
  induction e generalizing p with
  | nil => simp [entryRe, collapseConcat, Regex.ends, lastOr]
  | cons c e ih =>
    have h := collapseConcat_ends (charRe c) (e.map charRe) ⟨p, c :: (e ++ s)⟩
    simp only [entryRe, List.map_cons, List.cons_append] at *
    rw [h, charRe_ends_self]
    simpa [lastOr] using ih (some c)

theorem entryRe_ends_mem (e : GoString) (he : ∀ c ∈ e, isMeta c = false)
    (p : Option Char) (s : List Char) (cur : Cursor) :
    cur ∈ (entryRe e).ends ⟨p, s⟩ ↔ ∃ s', s = e ++ s' ∧ cur = ⟨lastOr p e, s'⟩ := by
  induction e generalizing p s with
  | nil => simp [entryRe, collapseConcat, Regex.ends, lastOr]
  | cons c e ih =>
    have hc := (isMeta_false_iff c).1 (he c (List.mem_cons_self _ _))
    have he' : ∀ d ∈ e, isMeta d = false := fun d hd => he d (List.mem_cons_of_mem _ hd)
    have h := collapseConcat_ends (charRe c) (e.map charRe) ⟨p, s⟩
    simp only [entryRe, List.map_cons] at *
    rw [h]
    have hre : charRe c = .literal c := by simp [charRe, hc.2]
    rw [hre]
    cases s with
    | nil => simp [Regex.ends, Cursor.eat]
    | cons d s =>
      by_cases hdc : d = c
      · subst hdc
        simp [Regex.ends, Cursor.eat, ih he', lastOr]
      · have hcd : ¬ c = d := fun h => hdc h.symm
        simp [Regex.ends, Cursor.eat, hdc, hcd]

theorem cursors_self (p : Option Char) (s : List Char) : ⟨p, s⟩ ∈ cursors p s := by
  cases s <;> simp [cursors]

theorem cursors_prev (p : Option Char) (s : List Char) (cur : Cursor)
    (h : cur ∈ cursors p s) : cur = ⟨p, s⟩ ∨ cur.prev.isNone = false := by
  induction s generalizing p with
  | nil => simp [cursors] at h; exact Or.inl h
  | cons c s ih =>
    simp only [cursors, List.mem_cons] at h
    rcases h with h | h
    · exact Or.inl h
    · rcases ih (some c) h with h' | h'
      · right; rw [h']; rfl
      · exact Or.inr h'

theorem anchored_ends (A : Regex) (cur c : Cursor) :
    c ∈ (Regex.concat .beginText (.concat (.capture A) .endText)).ends cur ↔
      cur.prev.isNone = true ∧ c ∈ A.ends cur ∧ c.rest = [] := by
  simp only [Regex.ends, Cursor.check, List.mem_flatMap]
  constructor
  · rintro ⟨a, ha, b, hb, hc⟩
    by_cases hp : cur.prev.isNone = true
    · simp only [hp, if_true, List.mem_singleton] at ha
      subst ha
      by_cases hr : b.rest.isEmpty = true
      · simp only [hr, if_true, List.mem_singleton] at hc
        subst hc
        exact ⟨hp, hb, List.isEmpty_iff.1 hr⟩
      · simp [hr] at hc
    · simp [hp] at ha
  · rintro ⟨hp, hc, hr⟩
    exact ⟨cur, by simp [hp], c, hc, by simp [hr]⟩

theorem anchored_MatchString (A : Regex) (s : GoString) :
    (Regex.concat .beginText (.concat (.capture A) .endText)).MatchString s = true ↔
      ∃ c ∈ A.ends ⟨none, s⟩, c.rest = [] := by
  unfold Regex.MatchString
  rw [List.any_eq_true]
  constructor
  · rintro ⟨cur, hcur, hne⟩
    obtain ⟨c, hc⟩ : ∃ c, c ∈ (Regex.concat .beginText (.concat (.capture A) .endText)).ends cur := by
      cases hl : (Regex.concat .beginText (.concat (.capture A) .endText)).ends cur with
      | nil => simp [hl] at hne
      | cons a l => exact ⟨a, by simp⟩
    obtain ⟨hp, hA, hr⟩ := (anchored_ends A cur c).1 hc
    rcases cursors_prev none s cur hcur with h | h
    · subst h; exact ⟨c, hA, hr⟩
    · rw [h] at hp; exact absurd hp (by simp)
  · rintro ⟨c, hc, hr⟩
    refine ⟨⟨none, s⟩, cursors_self none s, ?_⟩
    have := (anchored_ends A ⟨none, s⟩ c).2 ⟨rfl, hc, hr⟩
    cases hl : (Regex.concat .beginText (.concat (.capture A) .endText)).ends ⟨none, s⟩ with
    | nil => rw [hl] at this; simp at this
    | cons a l => simp

theorem excludeRe_MatchString (L : List GoString) (n : GoString) :
    (excludeRe L).MatchString n = true ↔
      ∃ e ∈ L, ∃ c ∈ (entryRe e).ends ⟨none, n⟩, c.rest = [] := by
  unfold excludeRe
  rw [anchored_MatchString]
  constructor
  · rintro ⟨c, hc, hr⟩
    obtain ⟨r, hr', hcr⟩ := (mem_collapseAlternate_ends _ _ _).1 hc
    obtain ⟨e, he, rfl⟩ := List.mem_map.1 hr'
    exact ⟨e, he, c, hcr, hr⟩
  · rintro ⟨e, he, c, hc, hr⟩
    exact ⟨c, (mem_collapseAlternate_ends _ _ _).2 ⟨entryRe e, List.mem_map_of_mem _ he, hc⟩, hr⟩

theorem excludeRe_MatchString_of_mem (L : List GoString) (n : GoString) (h : n ∈ L) :
    (excludeRe L).MatchString n = true := by
  rw [excludeRe_MatchString]
  refine ⟨n, h, ⟨lastOr none n, []⟩, ?_, rfl⟩
  simpa using entryRe_ends_self n none []

theorem excludeRe_MatchString_iff (L : List GoString)
    (hL : ∀ e ∈ L, ∀ c ∈ e, isMeta c = false) (n : GoString) :
    (excludeRe L).MatchString n = true ↔ n ∈ L := by
  constructor
  · rw [excludeRe_MatchString]
    rintro ⟨e, he, c, hc, hr⟩
    obtain ⟨s', hs, hcs⟩ := (entryRe_ends_mem e (hL e he) none n c).1 hc
    subst hcs
    simp only at hr
    subst hr
    simpa [hs] using he
  · exact excludeRe_MatchString_of_mem L n

theorem isMeta_of_isalnum_or_hyphen (c : Char) (h : isalnum c = true ∨ c = '-') :
    isMeta c = false := by
  rcases h with h | h
  · by_contra hm
    have hm' : isMeta c = true := by simpa using hm
    simp only [isMeta, isOperator, Bool.or_eq_true, beq_iff_eq] at hm'
    rcases hm' with ((((((((((h' | h') | h') | h') | h') | h') | h') | h') | h') | h') | h') | h' <;>
      · subst h'
        exact absurd h (by decide)
  · subst h
    decide

/-! ## The provider -/

theorem NewInstanceTypeProvider_of_operatorFree (api : EC2API) (L : List GoString)
    (hne : L ≠ []) (hL : ∀ e ∈ L, ∀ c ∈ e, isOperator c = false) :
    NewInstanceTypeProvider api L =
      .ok { ec2api := api, excludeListRegexp := some (excludeRe L), excludeList := L } := by
  cases L with
  | nil => exact absurd rfl hne
  | cons e es =>
    unfold NewInstanceTypeProvider
    rw [Compile_excludePattern e es hL]
    simp

/-! ## The fetch-with-filter loop -/

theorem pageHandler_eq (p : InstanceTypeProvider) (acc page : List InstanceTypeInfo)
    (lastPage : Bool) :
    p.pageHandler acc page lastPage = (acc ++ p.included page, true) := by
  unfold InstanceTypeProvider.pageHandler InstanceTypeProvider.included
  congr 1
  induction page generalizing acc with
  | nil => simp
  | cons x page ih =>
    simp only [List.foldl_cons, List.filter_cons]
    by_cases hx : p.instanceTypeInExcludeList x.InstanceType = true
    · simp [hx, ih]
    · simp [hx, ih]

theorem runPages_pageHandler (p : InstanceTypeProvider) (failure : Option GoError)
    (pages : List (List InstanceTypeInfo)) (acc : List InstanceTypeInfo) :
    runPages p.pageHandler failure pages acc =
      (acc ++ (pages.map p.included).flatten, failure) := by
  induction pages generalizing acc with
  | nil => simp [runPages]
  | cons page pages ih =>
    simp only [runPages, pageHandler_eq, if_true, ih]
    simp

theorem included_flatten (p : InstanceTypeProvider) (pages : List (List InstanceTypeInfo)) :
    (pages.map p.included).flatten = p.included pages.flatten := by
  induction pages with
  | nil => rfl
  | cons page pages ih =>
    simp only [List.map_cons, List.flatten_cons, ih]
    simp [InstanceTypeProvider.included]

theorem getInstanceTypes_ok (p : InstanceTypeProvider) (h : (p.ec2api hvmInput).err = none) :
    p.getInstanceTypes =
      (some (((p.ec2api hvmInput).pages.map p.included).flatten), none) := by
  unfold InstanceTypeProvider.getInstanceTypes DescribeInstanceTypesPagesWithContext
  rw [runPages_pageHandler, h]
  simp

theorem getInstanceTypes_err (p : InstanceTypeProvider) (e : GoError)
    (h : (p.ec2api hvmInput).err = some e) :
    p.getInstanceTypes = (none, some (Errorf "unable to fetch instance types")) := by
  unfold InstanceTypeProvider.getInstanceTypes DescribeInstanceTypesPagesWithContext
  rw [runPages_pageHandler, h]

theorem NewInstanceTypeProvider_fields (api : EC2API) (L : List GoString)
    (p : InstanceTypeProvider) (h : NewInstanceTypeProvider api L = .ok p) :
    p.ec2api = api ∧ p.excludeList = L := by
  unfold NewInstanceTypeProvider at h
  split at h
  · split at h
    · cases h; exact ⟨rfl, rfl⟩
    · cases h
  · cases h; exact ⟨rfl, rfl⟩

/-! ## The claims -/

/-- C1, as stated, fails: with the exclude list `["a+"]` the constructor succeeds, and
the name `a+`, an element of the list, is not excluded, because the entry is read as
the pattern "one or more `a`". -/
theorem C1_counterexample :
    "a+".toList ∈ ["a+".toList] ∧
    (NewInstanceTypeProvider (catalogOf []) ["a+".toList]).map
      (fun p => p.instanceTypeInExcludeList "a+".toList) = .ok false := by
  decide

/-- C1, amended: for every non-empty exclude list whose entries contain no pattern
operator (none of `\ | ( ) [ { * + ? ^ $`; the dot is allowed) and every name `n`
that is an element of the list, the constructor returns a provider and its
`instanceTypeInExcludeList n` is true. -/
theorem C1_member_is_excluded (api : EC2API) (L : List GoString) (n : GoString)
    (hne : L ≠ []) (hL : ∀ e ∈ L, ∀ c ∈ e, isOperator c = false) (hn : n ∈ L) :
    (NewInstanceTypeProvider api L).map (fun p => p.instanceTypeInExcludeList n) =
      .ok true := by
  rw [NewInstanceTypeProvider_of_operatorFree api L hne hL]
  simp [Except.map, InstanceTypeProvider.instanceTypeInExcludeList,
    excludeRe_MatchString_of_mem L n hn]

set_option maxRecDepth 100000 in
theorem C1_member_is_excluded_witness :
    (NewInstanceTypeProvider (catalogOf []) mainExcludeList).map
      (fun p => p.instanceTypeInExcludeList "a1.metal".toList) = .ok true :=
  C1_member_is_excluded (catalogOf []) mainExcludeList "a1.metal".toList
    (by decide) (by decide) (by decide)

set_option maxRecDepth 100000 in
/-- C2, as stated, fails: with the exclude list of `main` the name `a1xmetal`, which
is not an element of the list, is excluded, because the dot of `a1.metal` matches any
character. -/
theorem C2_counterexample :
    "a1xmetal".toList ∉ mainExcludeList ∧
    (NewInstanceTypeProvider (catalogOf []) mainExcludeList).map
      (fun p => p.instanceTypeInExcludeList "a1xmetal".toList) = .ok true := by
  decide

/-- C2, amended: for every non-empty exclude list whose entries contain no
metacharacter (no pattern operator and no dot) and every name `n` that is not an
element of the list, the constructor returns a provider and its
`instanceTypeInExcludeList n` is false. -/
theorem C2_nonmember_not_excluded (api : EC2API) (L : List GoString) (n : GoString)
    (hne : L ≠ []) (hL : ∀ e ∈ L, ∀ c ∈ e, isMeta c = false) (hn : n ∉ L) :
    (NewInstanceTypeProvider api L).map (fun p => p.instanceTypeInExcludeList n) =
      .ok false := by
  have hop : ∀ e ∈ L, ∀ c ∈ e, isOperator c = false :=
    fun e he c hc => ((isMeta_false_iff c).1 (hL e he c hc)).1
  rw [NewInstanceTypeProvider_of_operatorFree api L hne hop]
  have h : (excludeRe L).MatchString n = false := by
    rw [← Bool.not_eq_true, excludeRe_MatchString_iff L hL n]
    exact hn
  simp [Except.map, InstanceTypeProvider.instanceTypeInExcludeList, h]

theorem C2_nonmember_not_excluded_witness :
    (NewInstanceTypeProvider (catalogOf []) ["a1-metal".toList, "m5".toList]).map
      (fun p => p.instanceTypeInExcludeList "a1xmetal".toList) = .ok false :=
  C2_nonmember_not_excluded (catalogOf []) ["a1-metal".toList, "m5".toList]
    "a1xmetal".toList (by decide) (by decide) (by decide)

/-- C3: for the empty exclude list the constructor compiles no matcher, and
`instanceTypeInExcludeList n` of the provider it returns is true for every name `n`. -/
theorem C3_empty_list_excludes_everything (api : EC2API) :
    (NewInstanceTypeProvider api []).map (fun p => p.excludeListRegexp) = .ok none ∧
    ∀ n : GoString,
      (NewInstanceTypeProvider api []).map (fun p => p.instanceTypeInExcludeList n) =
        .ok true := by
  constructor
  · rfl
  · intro n; rfl

/-- C4: whenever the constructor returns a provider and the catalog enumeration
succeeds, `getInstanceTypes` returns, with no error, the order-preserving filter of the
catalog sequence (the pages in arrival order) by the negated predicate
`instanceTypeInExcludeList`, and `main` reports its length.  For a catalog
`[t1, t2, t3]` and the exclude list made of the name of `t2` (a name without
metacharacters, different from the names of `t1` and `t3`) the result is `[t1, t3]`;
for the exclude list `["a1.metal", "a1.medium"]` and the catalog
`["a1.metal", "a1.medium", "a1.large", "t3.micro"]` the result is
`["a1.large", "t3.micro"]` and the reported count is 2. -/
theorem C4_getInstanceTypes_is_filter (api : EC2API) (L : List GoString)
    (p : InstanceTypeProvider) (hp : NewInstanceTypeProvider api L = .ok p)
    (hok : (api hvmInput).err = none) :
    (p.getInstanceTypes =
        (some ((api hvmInput).pages.flatten.filter
          (fun t => !p.instanceTypeInExcludeList t.InstanceType)), none) ∧
      report p.getInstanceTypes =
        [.count ((api hvmInput).pages.flatten.filter
          (fun t => !p.instanceTypeInExcludeList t.InstanceType)).length]) ∧
    (∀ t1 t2 t3 : InstanceTypeInfo,
      (∀ c ∈ t2.InstanceType, isMeta c = false) →
      t1.InstanceType ≠ t2.InstanceType → t3.InstanceType ≠ t2.InstanceType →
      (NewInstanceTypeProvider (catalogOf [[t1, t2, t3]]) [t2.InstanceType]).map
        (fun q => q.getInstanceTypes) = .ok (some [t1, t3], none)) ∧
    ((NewInstanceTypeProvider
        (catalogOf [[info "a1.metal" 1, info "a1.medium" 2, info "a1.large" 3,
          info "t3.micro" 4]])
        ["a1.metal".toList, "a1.medium".toList]).map
        (fun q => (q.getInstanceTypes, report q.getInstanceTypes)) =
      .ok ((some [info "a1.large" 3, info "t3.micro" 4], none), [.count 2])) := by
  refine ⟨?_, ?_, by decide⟩
  · have hapi := (NewInstanceTypeProvider_fields api L p hp).1
    have hok' : (p.ec2api hvmInput).err = none := by rw [hapi]; exact hok
    have h := getInstanceTypes_ok p hok'
    rw [included_flatten, hapi] at h
    refine ⟨h, ?_⟩
    rw [h]
    rfl
  · intro t1 t2 t3 hmeta h1 h3
    have hL : ∀ e ∈ [t2.InstanceType], ∀ c ∈ e, isMeta c = false := by
      intro e he; rw [List.mem_singleton] at he; subst he; exact hmeta
    have hop : ∀ e ∈ [t2.InstanceType], ∀ c ∈ e, isOperator c = false :=
      fun e he c hc => ((isMeta_false_iff c).1 (hL e he c hc)).1
    rw [NewInstanceTypeProvider_of_operatorFree _ _ (by simp) hop]
    have hm : ∀ n, (excludeRe [t2.InstanceType]).MatchString n = true ↔
        n = t2.InstanceType := by
      intro n; rw [excludeRe_MatchString_iff _ hL n]; simp
    have e1 : (excludeRe [t2.InstanceType]).MatchString t1.InstanceType = false := by
      rw [← Bool.not_eq_true, hm]; exact h1
    have e2 : (excludeRe [t2.InstanceType]).MatchString t2.InstanceType = true :=
      (hm _).2 rfl
    have e3 : (excludeRe [t2.InstanceType]).MatchString t3.InstanceType = false := by
      rw [← Bool.not_eq_true, hm]; exact h3
    simp only [Except.map]
    rw [getInstanceTypes_ok _ rfl]
    simp [catalogOf, InstanceTypeProvider.included,
      InstanceTypeProvider.instanceTypeInExcludeList, List.filter_cons, e1, e2, e3]

theorem C4_getInstanceTypes_is_filter_witness :
    NewInstanceTypeProvider
        (catalogOf [[info "c5.large" 1], [info "m5.large" 2, info "c5.xlarge" 3]])
        ["m5.large".toList] =
      .ok ⟨["m5.large".toList], some (excludeRe ["m5.large".toList]),
        catalogOf [[info "c5.large" 1], [info "m5.large" 2, info "c5.xlarge" 3]]⟩ ∧
    (catalogOf [[info "c5.large" 1], [info "m5.large" 2, info "c5.xlarge" 3]]
      hvmInput).err = none ∧
    (InstanceTypeProvider.mk ["m5.large".toList] (some (excludeRe ["m5.large".toList]))
        (catalogOf [[info "c5.large" 1], [info "m5.large" 2, info "c5.xlarge" 3]])
      ).getInstanceTypes = (some [info "c5.large" 1, info "c5.xlarge" 3], none) :=
  ⟨rfl, rfl,
    ((C4_getInstanceTypes_is_filter
      (catalogOf [[info "c5.large" 1], [info "m5.large" 2, info "c5.xlarge" 3]])
      ["m5.large".toList]
      ⟨["m5.large".toList], some (excludeRe ["m5.large".toList]),
        catalogOf [[info "c5.large" 1], [info "m5.large" 2, info "c5.xlarge" 3]]⟩
      rfl rfl).1.1).trans (by decide)⟩

/-- C5, pagination transparency: the page handler never signals stop, and for every
sequence of pages delivered by a successful enumeration `getInstanceTypes` returns the
concatenation, in arrival order, of the filtered contents of each page, which is also
what it returns for the single page formed by concatenating all pages.  In particular,
for the pages `[t1, t2]` and `[t3]`, when none of the three is excluded, the result is
`[t1, t2, t3]`. -/
theorem C5_pagination_transparency (p : InstanceTypeProvider)
    (hok : (p.ec2api hvmInput).err = none) :
    (∀ acc page lastPage, (p.pageHandler acc page lastPage).2 = true) ∧
    p.getInstanceTypes =
      (some (((p.ec2api hvmInput).pages.map
        (fun page => page.filter
          (fun t => !p.instanceTypeInExcludeList t.InstanceType))).flatten), none) ∧
    p.getInstanceTypes =
      ({ p with ec2api := catalogOf [(p.ec2api hvmInput).pages.flatten] }
        ).getInstanceTypes ∧
    (∀ t1 t2 t3 : InstanceTypeInfo, (p.ec2api hvmInput).pages = [[t1, t2], [t3]] →
      p.instanceTypeInExcludeList t1.InstanceType = false →
      p.instanceTypeInExcludeList t2.InstanceType = false →
      p.instanceTypeInExcludeList t3.InstanceType = false →
      p.getInstanceTypes = (some [t1, t2, t3], none)) := by
  have h := getInstanceTypes_ok p hok
  refine ⟨fun acc page lastPage => by rw [pageHandler_eq], h, ?_, ?_⟩
  · rw [h, getInstanceTypes_ok _ rfl]
    simp only [catalogOf, List.map_cons, List.map_nil, List.flatten_cons, List.flatten_nil,
      List.append_nil]
    rw [included_flatten]
    rfl
  · intro t1 t2 t3 hpages h1 h2 h3
    rw [h, hpages]
    simp [InstanceTypeProvider.included, List.filter_cons, h1, h2, h3]

theorem C5_pagination_transparency_witness :
    (InstanceTypeProvider.mk ["m5.large".toList] (some (excludeRe ["m5.large".toList]))
        (catalogOf [[info "c5.large" 1, info "m5.large" 2], [info "c5.xlarge" 3]])
      ).getInstanceTypes = (some [info "c5.large" 1, info "c5.xlarge" 3], none) :=
  ((C5_pagination_transparency
    ⟨["m5.large".toList], some (excludeRe ["m5.large".toList]),
      catalogOf [[info "c5.large" 1, info "m5.large" 2], [info "c5.xlarge" 3]]⟩
    rfl).2.1).trans (by decide)

/-- C6: when the enumeration ends with an error, after any pages already delivered to
the handler, `getInstanceTypes` returns a nil result together with a non-nil error:
nothing of what was collected is returned, and the length of the result is 0. -/
theorem C6_fetch_failure_no_partial_list (p : InstanceTypeProvider) (e : GoError)
    (herr : (p.ec2api hvmInput).err = some e) :
    p.getInstanceTypes.1 = none ∧ p.getInstanceTypes.2 ≠ none ∧
      len p.getInstanceTypes.1 = 0 := by
  rw [getInstanceTypes_err p e herr]
  exact ⟨rfl, by simp, rfl⟩

theorem C6_fetch_failure_no_partial_list_witness :
    (InstanceTypeProvider.mk ["m5.large".toList] (some (excludeRe ["m5.large".toList]))
        (failingCatalog [[info "c5.large" 1, info "m5.large" 2]]
          (.errorString "RequestLimitExceeded"))).getInstanceTypes.1 = none :=
  (C6_fetch_failure_no_partial_list
    ⟨["m5.large".toList], some (excludeRe ["m5.large".toList]),
      failingCatalog [[info "c5.large" 1, info "m5.large" 2]]
        (.errorString "RequestLimitExceeded")⟩
    (.errorString "RequestLimitExceeded") rfl).1

/-- C7, as stated, fails: two enumerations that fail with different causes give the
same returned error, and unwrapping the returned error gives nothing. -/
theorem C7_counterexample :
    GoError.errorString "RequestLimitExceeded" ≠ GoError.errorString "AuthFailure" ∧
    (InstanceTypeProvider.mk [] none
        (failingCatalog [] (.errorString "RequestLimitExceeded"))).getInstanceTypes.2 =
      (InstanceTypeProvider.mk [] none
        (failingCatalog [] (.errorString "AuthFailure"))).getInstanceTypes.2 ∧
    ((InstanceTypeProvider.mk [] none
        (failingCatalog [] (.errorString "RequestLimitExceeded"))).getInstanceTypes.2.bind
      GoError.Unwrap) = none := by
  decide

/-- C7, amended: when the enumeration fails with an underlying error `e`, the error
returned by `getInstanceTypes` is the fixed error with the text
`unable to fetch instance types`, whatever `e` is; it wraps nothing. -/
theorem C7_fetch_error_is_fixed (p : InstanceTypeProvider) (e : GoError)
    (herr : (p.ec2api hvmInput).err = some e) :
    p.getInstanceTypes.2 = some (.errorString "unable to fetch instance types") ∧
      p.getInstanceTypes.2.bind GoError.Unwrap = none := by
  rw [getInstanceTypes_err p e herr]
  exact ⟨rfl, rfl⟩

theorem C7_fetch_error_is_fixed_witness :
    (InstanceTypeProvider.mk [] none
        (failingCatalog [[info "c5.large" 1]]
          (.wrapError "request failed" (.errorString "timeout")))).getInstanceTypes.2 =
      some (.errorString "unable to fetch instance types") :=
  (C7_fetch_error_is_fixed
    ⟨[], none, failingCatalog [[info "c5.large" 1]]
      (.wrapError "request failed" (.errorString "timeout"))⟩
    (.wrapError "request failed" (.errorString "timeout")) rfl).1

/-- C8, as stated, fails: neither `a)` nor `(b` compiles on its own, yet for the
exclude list `["a)", "(b"]` the combined pattern `^(a)|(b)$` compiles and the
constructor returns a provider. -/
theorem C8_counterexample :
    Compile "a)".toList = .error (.syntaxError .unexpectedParen) ∧
    Compile "(b".toList = .error (.syntaxError .missingParen) ∧
    (NewInstanceTypeProvider (catalogOf []) ["a)".toList, "(b".toList]).map
        (fun p => p.excludeListRegexp) =
      .ok (some (.alternate (.concat .beginText (.capture (.literal 'a')))
        (.concat (.capture (.literal 'b')) .endText))) := by
  decide

/-- C8, amended: construction fails with a syntax error exactly when the exclude list
is non-empty and the combined pattern `^(e1|...|ek)$` does not compile; the error is
that of the combined pattern.  For example the list `["a1.metal", "*"]` fails, the
star having nothing to repeat. -/
theorem C8_construction_fails_iff (api : EC2API) (L : List GoString) (code : ErrorCode) :
    (NewInstanceTypeProvider api L = .error (.syntaxError code) ↔
      L ≠ [] ∧ Compile (excludePattern L) = .error (.syntaxError code)) ∧
    NewInstanceTypeProvider api ["a1.metal".toList, "*".toList] =
      .error (.syntaxError .missingRepeatArgument) := by
  constructor
  · unfold NewInstanceTypeProvider
    cases L with
    | nil => simp
    | cons e es =>
      cases h : Compile (excludePattern (e :: es)) with
      | ok re => simp
      | error err => simp
  · have h : Compile (excludePattern ["a1.metal".toList, "*".toList]) =
        .error (.syntaxError .missingRepeatArgument) := by decide
    unfold NewInstanceTypeProvider
    rw [h]
    rfl

/-- C9: for every non-empty exclude list whose entries contain no regular-expression
metacharacter (in particular when they are made of letters, digits and hyphens), the
pattern `^(e1|...|ek)$` compiles, the constructor returns a provider, and its
`instanceTypeInExcludeList n` is true if and only if `n` is equal to an entry of the
list. -/
theorem C9_plain_entries_exact_match (api : EC2API) (L : List GoString)
    (hne : L ≠ []) (hL : ∀ e ∈ L, ∀ c ∈ e, isMeta c = false) :
    (∃ re, Compile (excludePattern L) = .ok re) ∧
    ∃ p, NewInstanceTypeProvider api L = .ok p ∧
      ∀ n, p.instanceTypeInExcludeList n = true ↔ n ∈ L := by
  have hop : ∀ e ∈ L, ∀ c ∈ e, isOperator c = false :=
    fun e he c hc => ((isMeta_false_iff c).1 (hL e he c hc)).1
  constructor
  · cases L with
    | nil => exact absurd rfl hne
    | cons e es => exact ⟨_, Compile_excludePattern e es hop⟩
  · refine ⟨_, NewInstanceTypeProvider_of_operatorFree api L hne hop, fun n => ?_⟩
    simp only [InstanceTypeProvider.instanceTypeInExcludeList]
    exact excludeRe_MatchString_iff L hL n

theorem C9_plain_entries_exact_match_witness :
    ∃ re, Compile (excludePattern ["t3-micro".toList, "m5".toList]) = .ok re :=
  (C9_plain_entries_exact_match (catalogOf []) ["t3-micro".toList, "m5".toList]
    (by decide) (by decide)).1

/-- C10: with an empty exclude list, for every catalog whose enumeration succeeds,
`getInstanceTypes` returns the empty sequence with no error, whatever the pages
contain, and the reported count is 0. -/
theorem C10_empty_list_returns_nothing (api : EC2API) (hok : (api hvmInput).err = none) :
    (NewInstanceTypeProvider api []).map (fun p => p.getInstanceTypes) =
        .ok (some [], none) ∧
    (NewInstanceTypeProvider api []).map (fun p => report p.getInstanceTypes) =
        .ok [.count 0] := by
  have h : (InstanceTypeProvider.mk [] none api).getInstanceTypes = (some [], none) := by
    rw [getInstanceTypes_ok _ hok]
    have : ∀ page, (InstanceTypeProvider.mk [] none api).included page = [] := by
      intro page
      simp [InstanceTypeProvider.included, InstanceTypeProvider.instanceTypeInExcludeList]
    simp [this]
  simp only [NewInstanceTypeProvider, Except.map]
  simp [h, report, len]

theorem C10_empty_list_returns_nothing_witness :
    (NewInstanceTypeProvider (catalogOf [[info "c5.large" 1], [info "m5.large" 2]]) []).map
        (fun p => p.getInstanceTypes) = .ok (some [], none) :=
  (C10_empty_list_returns_nothing (catalogOf [[info "c5.large" 1], [info "m5.large" 2]])
    rfl).1

end AwsInstanceTypes
